import Mathlib

/-!
Shallow embedding of the meeting-summarizer repository core:
the producer-side job store (packages/client/src/services/db.ts),
the SyncManager reconciliation cycle (packages/client/src/services/syncManager.ts),
and the worker ingress routes (packages/server/src/index.ts, buildServer variant).
-/

namespace MeetingSummarizer

/-! ## Shared types (packages/shared: TranscriptionLanguage, AIPromptTemplate, UploadOptions) -/

/-- String enum from shared/index.ts: values auto, en, pt, es (all non-empty strings). -/
inductive TranscriptionLanguage
  | auto | en | pt | es
deriving DecidableEq, Repr

/-- String enum from shared/index.ts: values meeting, training, summary (all non-empty). -/
inductive AIPromptTemplate
  | meeting | training | summary
deriving DecidableEq, Repr

/-- shared UploadOptions: language and template are required fields of the interface. -/
structure UploadOptions where
  language : TranscriptionLanguage
  template : AIPromptTemplate
  minSpeakers : Option Nat := none
  maxSpeakers : Option Nat := none
deriving DecidableEq, Repr

/-! ## Producer data model (client/src/domain/clientJob.ts) -/

inductive ClientJobStatus
  | WAITING_UPLOAD | UPLOADING | PROCESSING | READY
  | COMPLETED | FAILED | ABANDONED | DELETED
deriving DecidableEq, Repr

/-- ClientJob from client/src/domain/clientJob.ts (the shape SyncManager and the
    LowDB job list operate on: keyed by jobId, status field named status). -/
structure ClientJob where
  jobId : String
  filePath : String
  originalFilename : String
  status : ClientJobStatus
  retryCount : Nat
  createdAt : String
  error : Option String := none
  options : Option UploadOptions := none
deriving DecidableEq, Repr

/-- The backing document of the producer store: interface ClientSchema of a jobs array. -/
structure ClientSchema where
  jobs : List ClientJob
deriving DecidableEq, Repr

/-! ## Producer JobStore operations (client/src/services/db.ts)

Every mutating operation in the source follows the same pattern:
find the record (Array.prototype.find returns the FIRST match),
mutate it in place if found, and call db.write() only when it was found.
We model the in-place mutation of the first match with updateFirst, and
each operation returns the new job list together with a Bool recording
whether db.write() was invoked. -/

/-- Mutate (only) the first element satisfying p, as Array.find followed by
    in-place mutation does. -/
def updateFirst (p : α → Bool) (f : α → α) : List α → List α
  | [] => []
  | x :: xs => if p x then f x :: xs else x :: updateFirst p f xs

/-- this.db.data.jobs.find(j => j.jobId === id) -/
def findRecord (jobs : List ClientJob) (id : String) : Option ClientJob :=
  jobs.find? (fun j => j.jobId == id)

/-- Common shape of the store mutators: find by id, apply the in-place update to
    the found record, write iff found. -/
def dbUpdate (id : String) (f : ClientJob → ClientJob) (jobs : List ClientJob) :
    List ClientJob × Bool :=
  (updateFirst (fun j => j.jobId == id) f jobs, (findRecord jobs id).isSome)

/-- LowDB.updateStatus(id, status). -/
def updateStatus (jobs : List ClientJob) (id : String) (status : ClientJobStatus) :
    List ClientJob × Bool :=
  dbUpdate id (fun j => { j with status := status }) jobs

/-- LowDB.updateOptions(id, options). -/
def updateOptions (jobs : List ClientJob) (id : String) (options : UploadOptions) :
    List ClientJob × Bool :=
  dbUpdate id (fun j => { j with options := some options }) jobs

/-- LowDB.markCompleted(id) delegates to updateStatus(id, COMPLETED). -/
def markCompleted (jobs : List ClientJob) (id : String) : List ClientJob × Bool :=
  updateStatus jobs id ClientJobStatus.COMPLETED

/-- The in-place mutation performed by LowDB.setError on the found record:
    set error; if fatal go straight to ABANDONED leaving retryCount alone,
    otherwise increment retryCount and pick ABANDONED at the threshold 4,
    FAILED below it. -/
def setErrorUpdate (errorMsg : String) (isFatal : Bool) (j : ClientJob) : ClientJob :=
  if isFatal then
    { j with error := some errorMsg, status := ClientJobStatus.ABANDONED }
  else if j.retryCount + 1 ≥ 4 then
    { j with error := some errorMsg, retryCount := j.retryCount + 1,
             status := ClientJobStatus.ABANDONED }
  else
    { j with error := some errorMsg, retryCount := j.retryCount + 1,
             status := ClientJobStatus.FAILED }

/-- LowDB.setError(id, errorMsg, isFatal). -/
def setError (jobs : List ClientJob) (id : String) (errorMsg : String) (isFatal : Bool) :
    List ClientJob × Bool :=
  dbUpdate id (setErrorUpdate errorMsg isFatal) jobs

/-- LowDB.resetJobForRetry(id): retryCount := 0, status := WAITING_UPLOAD, error cleared. -/
def resetJobForRetry (jobs : List ClientJob) (id : String) : List ClientJob × Bool :=
  dbUpdate id
    (fun j => { j with retryCount := 0, status := ClientJobStatus.WAITING_UPLOAD,
                       error := none }) jobs

/-- LowDB.getReadyToFetch: jobs.filter(j => j.status === READY) (no sorting). -/
def getReadyToFetch (jobs : List ClientJob) : List ClientJob :=
  jobs.filter (fun j => j.status == ClientJobStatus.READY)

/-- LowDB.getAll: a copy of the jobs array sorted by createdAt descending.
    The numeric value new Date(s).getTime() is abstracted as the injected
    dateVal; the JS comparator (a, b) => dateVal b - dateVal a keeps a before b
    when dateVal b is at most dateVal a. -/
def getAll (dateVal : String → Int) (jobs : List ClientJob) : List ClientJob :=
  jobs.mergeSort (fun a b => decide (dateVal b.createdAt ≤ dateVal a.createdAt))

/-- The fixed error text written by cleanPhantomFiles. -/
def phantomErrorMsg : String := "File was deleted from the local disk."

/-- Statuses that cleanPhantomFiles inspects (vulnerableStates in the source). -/
def vulnerableStates : List ClientJobStatus :=
  [ClientJobStatus.WAITING_UPLOAD, ClientJobStatus.FAILED]

/-- Body of the cleanPhantomFiles for-loop for a single record: if the status is
    vulnerable and the injected fileExists check fails, mark it DELETED with the
    fixed error and count 1, otherwise leave it alone and count 0. -/
def cleanPhantomStep (fileExists : String → Bool) (job : ClientJob) : ClientJob × Nat :=
  if vulnerableStates.contains job.status then
    if fileExists job.filePath then (job, 0)
    else ({ job with status := ClientJobStatus.DELETED, error := some phantomErrorMsg }, 1)
  else (job, 0)

/-- The for-loop of cleanPhantomFiles over the whole jobs array, accumulating
    cleanedCount. -/
def cleanPhantomLoop (fileExists : String → Bool) : List ClientJob → List ClientJob × Nat
  | [] => ([], 0)
  | j :: rest =>
    let (j', c) := cleanPhantomStep fileExists j
    let (rest', cs) := cleanPhantomLoop fileExists rest
    (j' :: rest', c + cs)

/-- LowDB.cleanPhantomFiles: run the loop, then db.write() only if cleanedCount
    is positive; returns (new jobs, cleanedCount, whether a write happened). -/
def cleanPhantomFiles (fileExists : String → Bool) (jobs : List ClientJob) :
    List ClientJob × Nat × Bool :=
  let (jobs', count) := cleanPhantomLoop fileExists jobs
  (jobs', count, decide (count > 0))

/-- LowDB.init: read the backing document; on a successful read fall back to an
    empty schema only when the document held nothing (db.data ||= emptiness),
    but on a read failure (corrupt file) catch the error, log, and continue with
    an empty schema. The Except codomain records whether startup aborts: the
    source never rethrows, so no input is mapped to an error. -/
def lowDbInit (readResult : Except String (Option ClientSchema)) : Except String ClientSchema :=
  match readResult with
  | Except.ok d =>
    match d with
    | some data => Except.ok data
    | none => Except.ok { jobs := [] }
  | Except.error _ => Except.ok { jobs := [] }

/-! ## SyncManager (client/src/services/syncManager.ts)

The transport and the worker are injected: the status/fetch query
api : jobId to Except Unit ServerJob models this.api.getJobStatus, where an
error value is a thrown transport exception (tunnel down) and an ok value is
the JSON the worker returned. -/

/-- Worker-side status union from the server JobRecord. -/
inductive WorkerStatus
  | PENDING | EXTRACTING | TRANSCRIBING | SUMMARIZING | COMPLETED | FAILED
deriving DecidableEq, Repr

/-- The fields of the worker response the SyncManager reads: status, error,
    and the hydrated text payloads. -/
structure ServerJob where
  status : WorkerStatus
  error : Option String := none
  summaryText : Option String := none
  transcriptText : Option String := none
deriving DecidableEq, Repr

/-- JS truthiness for an optional string field: undefined and the empty string
    are falsy, every other string is truthy. -/
def truthyStr : Option String → Bool
  | none => false
  | some s => s != ""

/-- Errors thrown by the transport upload, as pushJob classifies them:
    a SyncError (with its isTransient flag and status code) or any other
    thrown value, whose message is available only when it was an Error. -/
inductive UploadError
  | syncError (message : String) (isTransient : Bool) (statusCode : Option Nat)
  | otherError (message : Option String)
deriving DecidableEq, Repr

/-- MAX_RETRIES in SyncManager. -/
def MAX_RETRIES : Nat := 3

/-- SyncManager.pushJob(job): prompt for options when the job has none
    ( the check !job.options || !job.options.language || !job.options.template
    reduces to options being absent, because both enums only have non-empty
    string values ), persist them, transition to UPLOADING, attempt the upload,
    and on success set PROCESSING then call resetJobForRetry; on failure record
    the error with the fatality taken from the SyncError taxonomy. -/
def pushJob (prompted : UploadOptions) (uploadResult : Except UploadError Unit)
    (jobs : List ClientJob) (job : ClientJob) : List ClientJob :=
  let missing := job.options.isNone
  let jobs1 := if missing then (updateOptions jobs job.jobId prompted).1 else jobs
  let jobs2 := (updateStatus jobs1 job.jobId ClientJobStatus.UPLOADING).1
  match uploadResult with
  | Except.ok _ =>
    let jobs3 := (updateStatus jobs2 job.jobId ClientJobStatus.PROCESSING).1
    (resetJobForRetry jobs3 job.jobId).1
  | Except.error e =>
    match e with
    | UploadError.syncError msg isTransient _ =>
      if isTransient then (setError jobs2 job.jobId msg false).1
      else (setError jobs2 job.jobId msg true).1
    | UploadError.otherError m =>
      (setError jobs2 job.jobId (m.getD "Upload failed") false).1

/-- The target set pushPending selects from getAll(): status WAITING_UPLOAD, or
    status FAILED with retryCount below MAX_RETRIES. -/
def pushPendingTargets (dateVal : String → Int) (jobs : List ClientJob) : List ClientJob :=
  (getAll dateVal jobs).filter (fun job =>
    job.status == ClientJobStatus.WAITING_UPLOAD ||
    (job.status == ClientJobStatus.FAILED && job.retryCount < MAX_RETRIES))

/-- Loop body of updateActiveStates for one PROCESSING snapshot record: query
    the worker; COMPLETED moves the record to READY, FAILED records a fatal
    error (falling back to the fixed message when the worker sent none), any
    in-progress stage or a thrown query leaves the store untouched. -/
def updateActiveStep (api : String → Except Unit ServerJob)
    (jobs : List ClientJob) (job : ClientJob) : List ClientJob :=
  match api job.jobId with
  | Except.ok serverJob =>
    if serverJob.status = WorkerStatus.COMPLETED then
      (updateStatus jobs job.jobId ClientJobStatus.READY).1
    else if serverJob.status = WorkerStatus.FAILED then
      (setError jobs job.jobId (serverJob.error.getD "Server processing failed") true).1
    else jobs
  | Except.error _ => jobs

/-- The for-loop of updateActiveStates over the PROCESSING snapshot. -/
def updateActiveLoop (api : String → Except Unit ServerJob) :
    List ClientJob → List ClientJob → List ClientJob
  | [], jobs => jobs
  | p :: rest, jobs => updateActiveLoop api rest (updateActiveStep api jobs p)

/-- SyncManager.updateActiveStates: take the getAll() snapshot, keep the
    PROCESSING records, and run the loop against the live store. -/
def updateActiveStates (api : String → Except Unit ServerJob) (dateVal : String → Int)
    (jobs : List ClientJob) : List ClientJob :=
  updateActiveLoop api
    ((getAll dateVal jobs).filter (fun j => j.status == ClientJobStatus.PROCESSING)) jobs

/-- Externally observable side effects of fetchResults: a text file written via
    the injected file manager, or the note sink invoked for a job. -/
inductive FetchEffect
  | wroteFile (path content : String)
  | sinkNote (jobId : String) (summary : String) (transcript : Option String)
deriving DecidableEq, Repr

/-- originalFilename.replace of the trailing media extension: the JS regex
    removes a final dot followed by one or more characters none of which is a
    dot or a slash. -/
def stripMediaExtension (s : String) : String :=
  let parts := s.splitOn "."
  match parts.reverse with
  | last :: (front₀ :: fronts) =>
    if last != "" && !(last.contains '/') then
      String.intercalate "." (front₀ :: fronts).reverse
    else s
  | _ => s

/-- this.fs.joinPaths. -/
def joinPaths (a b : String) : String := a ++ "/" ++ b

/-- Loop body of fetchResults for one READY snapshot record: fetch the hydrated
    payload; when the summary text is truthy, write the summary (and, when
    truthy, the transcript) to text files, invoke the note sink, and mark the
    job COMPLETED; otherwise — including when the fetch throws — change
    nothing and emit nothing. -/
def fetchStep (api : String → Except Unit ServerJob)
    (jobs : List ClientJob) (job : ClientJob) : List ClientJob × List FetchEffect :=
  match api job.jobId with
  | Except.error _ => (jobs, [])
  | Except.ok finalPayload =>
    match finalPayload.summaryText with
    | some summary =>
      if summary != "" then
        let baseName := stripMediaExtension job.originalFilename
        let summaryPath := joinPaths "summaries" (baseName ++ "_summary.txt")
        let transcriptEffects :=
          match finalPayload.transcriptText with
          | some transcript =>
            if transcript != "" then
              [FetchEffect.wroteFile
                (joinPaths "transcriptions" (baseName ++ "_transcription.txt")) transcript]
            else []
          | none => []
        ((markCompleted jobs job.jobId).1,
         FetchEffect.wroteFile summaryPath summary ::
           (transcriptEffects ++
            [FetchEffect.sinkNote job.jobId summary finalPayload.transcriptText]))
      else (jobs, [])
    | none => (jobs, [])

/-- The for-loop of fetchResults over the READY snapshot, accumulating effects
    in order. -/
def fetchLoop (api : String → Except Unit ServerJob) :
    List ClientJob → List ClientJob → List ClientJob × List FetchEffect
  | [], jobs => (jobs, [])
  | r :: rest, jobs =>
    let step := fetchStep api jobs r
    let restResult := fetchLoop api rest step.1
    (restResult.1, step.2 ++ restResult.2)

/-- SyncManager.fetchResults: take the getReadyToFetch() snapshot and run the
    loop against the live store. -/
def fetchResults (api : String → Except Unit ServerJob) (jobs : List ClientJob) :
    List ClientJob × List FetchEffect :=
  fetchLoop api (getReadyToFetch jobs) jobs

/-! ## Worker ingress (packages/server buildServer: POST /upload and GET /jobs/:id) -/

/-- Worker store record (JobRecord): language and template are stored as the
    already-validated enum string values; the four path fields are
    worker-internal. -/
structure JobRecord where
  id : String
  originalFilename : String
  filePath : String
  uploadDate : String
  status : WorkerStatus
  language : String := "auto"
  template : String := "meeting"
  minSpeakers : Option Nat := none
  maxSpeakers : Option Nat := none
  audioPath : Option String := none
  transcriptPath : Option String := none
  summaryPath : Option String := none
  error : Option String := none
deriving DecidableEq, Repr

/-- One part of the multipart upload stream: the binary file part (with its
    client-side filename) or a plain field part. -/
inductive UploadPart
  | filePart (filename : String)
  | fieldPart (name : String) (value : String)
deriving DecidableEq, Repr

/-- The handler-local accumulation while iterating req.parts(): uploadFilename,
    savePath, and the fields record (only the keys the handler later reads). -/
structure UploadScratch where
  uploadFilename : String := ""
  savePath : String := ""
  fieldId : Option String := none
  fieldLanguage : Option String := none
  fieldTemplate : Option String := none
  fieldMinSpeakers : Option String := none
  fieldMaxSpeakers : Option String := none
deriving DecidableEq, Repr

/-- utils/helper.ts parseEnum: keep the value if it is one of the enum string
    values, otherwise the fallback (undefined is never a member). -/
def parseEnum (value : Option String) (enumValues : List String) (fallback : String) : String :=
  match value with
  | some v => if enumValues.contains v then v else fallback
  | none => fallback

/-- fields.minSpeakers ? parseInt(fields.minSpeakers) : undefined, followed by
    the isNaN guard; parseInt of a plain decimal numeral is modelled by toNat?,
    non-numeric input giving NaN and hence undefined. -/
def parseSpeakers (value : Option String) : Option Nat :=
  match value with
  | some v => if v == "" then none else v.toNat?
  | none => none

/-- The for-await loop over req.parts(): a file part streams to
    uploads/uuid_name and OVERWRITES fields.id with the fresh server-side uuid;
    a field part stores its value under its field name (later parts win). The
    fresh uuids are supplied as a list consumed one per file part. -/
def processParts : List String → List UploadPart → UploadScratch → UploadScratch
  | _, [], scratch => scratch
  | freshIds, UploadPart.filePart filename :: rest, scratch =>
    let freshId := (freshIds.headD "uuid")
    let safeFilename := freshId ++ "_" ++ filename
    processParts freshIds.tail rest
      { scratch with uploadFilename := filename,
                     savePath := "uploads" ++ "/" ++ safeFilename,
                     fieldId := some freshId }
  | freshIds, UploadPart.fieldPart name value :: rest, scratch =>
    let scratch' :=
      if name == "id" then { scratch with fieldId := some value }
      else if name == "language" then { scratch with fieldLanguage := some value }
      else if name == "template" then { scratch with fieldTemplate := some value }
      else if name == "minSpeakers" then { scratch with fieldMinSpeakers := some value }
      else if name == "maxSpeakers" then { scratch with fieldMaxSpeakers := some value }
      else scratch
    processParts freshIds rest scratch'

/-- POST /upload: iterate the parts; 400 when no file part arrived; otherwise
    build the new JobRecord and push it onto db.data.jobs — the list always
    grows by the appended record, it is never searched for an existing id. -/
def postUpload (freshIds : List String) (now : String) (existingJobs : List JobRecord)
    (parts : List UploadPart) : Except String (List JobRecord × JobRecord) :=
  let scratch := processParts freshIds parts {}
  if scratch.savePath == "" then Except.error "No file uploaded"
  else
    let newJob : JobRecord :=
      { id := scratch.fieldId.getD "",
        originalFilename := scratch.uploadFilename,
        filePath := scratch.savePath,
        uploadDate := now,
        status := WorkerStatus.PENDING,
        language := parseEnum scratch.fieldLanguage ["auto", "en", "pt", "es"] "auto",
        template := parseEnum scratch.fieldTemplate ["meeting", "training", "summary"] "meeting",
        minSpeakers := parseSpeakers scratch.fieldMinSpeakers,
        maxSpeakers := parseSpeakers scratch.fieldMaxSpeakers }
    Except.ok (existingJobs ++ [newJob], newJob)

/-- Rendering of a WorkerStatus as the JSON string the route sends. -/
def workerStatusStr : WorkerStatus → String
  | WorkerStatus.PENDING => "PENDING"
  | WorkerStatus.EXTRACTING => "EXTRACTING"
  | WorkerStatus.TRANSCRIBING => "TRANSCRIBING"
  | WorkerStatus.SUMMARIZING => "SUMMARIZING"
  | WorkerStatus.COMPLETED => "COMPLETED"
  | WorkerStatus.FAILED => "FAILED"

/-- An optional field of the serialized record: present iff the value is. -/
def optField (key : String) : Option String → List (String × String)
  | some v => [(key, v)]
  | none => []

/-- The JSON key-value pairs of a full JobRecord (optional fields omitted when
    undefined, as JSON serialization drops them). -/
def jobRecordFields (j : JobRecord) : List (String × String) :=
  [("id", j.id), ("originalFilename", j.originalFilename), ("filePath", j.filePath),
   ("uploadDate", j.uploadDate), ("status", workerStatusStr j.status),
   ("language", j.language), ("template", j.template)]
  ++ optField "minSpeakers" (j.minSpeakers.map toString)
  ++ optField "maxSpeakers" (j.maxSpeakers.map toString)
  ++ optField "audioPath" j.audioPath
  ++ optField "transcriptPath" j.transcriptPath
  ++ optField "summaryPath" j.summaryPath
  ++ optField "error" j.error

/-- The four worker-internal keys the route strips. -/
def internalPathKeys : List String :=
  ["filePath", "audioPath", "transcriptPath", "summaryPath"]

/-- The rest-spread destructuring of the route: every field of the record
    except filePath, audioPath, transcriptPath and summaryPath. -/
def safeJobFields (j : JobRecord) : List (String × String) :=
  (jobRecordFields j).filter (fun kv => !(internalPathKeys.contains kv.1))

/-- Hydration of one text field: only attempted when the path is recorded and
    fs.existsSync holds; a successful read contributes the text key, a throwing
    read contributes the per-field error key instead. -/
def hydrateField (fileExists : String → Bool) (readFile : String → Except Unit String)
    (pathOpt : Option String) (textKey errKey : String) : List (String × String) :=
  match pathOpt with
  | some p =>
    if fileExists p then
      match readFile p with
      | Except.ok text => [(textKey, text)]
      | Except.error _ => [(errKey, "File unreadable.")]
    else []
  | none => []

/-- GET /jobs/:id: 404 on an unknown id; otherwise the stripped record plus the
    hydrated transcript and summary content. -/
def getJobRoute (fileExists : String → Bool) (readFile : String → Except Unit String)
    (jobsDb : List JobRecord) (reqId : String) : Except String (List (String × String)) :=
  match jobsDb.find? (fun j => j.id == reqId) with
  | none => Except.error "Job not found"
  | some job =>
    Except.ok (safeJobFields job
      ++ hydrateField fileExists readFile job.transcriptPath "transcriptText" "transcriptError"
      ++ hydrateField fileExists readFile job.summaryPath "summaryText" "summaryError")

/-! ## Store lemmas -/

theorem updateFirst_of_forall_false {α : Type} (p : α → Bool) (f : α → α) :
    ∀ l : List α, (∀ x ∈ l, p x = false) → updateFirst p f l = l
  | [], _ => rfl
  | x :: xs, h => by
    have hx : p x = false := h x (List.mem_cons_self x xs)
    have hxs := updateFirst_of_forall_false p f xs
      (fun y hy => h y (List.mem_cons_of_mem x hy))
    simp [updateFirst, hx, hxs]

theorem findRecord_eq_none (jobs : List ClientJob) (id : String)
    (h : ∀ j ∈ jobs, j.jobId ≠ id) : findRecord jobs id = none := by
  apply List.find?_eq_none.mpr
  intro j hj
  simp [h j hj]

theorem dbUpdate_of_not_found (jobs : List ClientJob) (id : String)
    (f : ClientJob → ClientJob) (h : ∀ j ∈ jobs, j.jobId ≠ id) :
    dbUpdate id f jobs = (jobs, false) := by
  unfold dbUpdate
  rw [findRecord_eq_none jobs id h,
      updateFirst_of_forall_false _ f jobs (fun j hj => by simp [h j hj])]
  rfl

theorem findRecord_cons_of_pos (x : ClientJob) (xs : List ClientJob) (id : String)
    (h : x.jobId = id) : findRecord (x :: xs) id = some x := by
  unfold findRecord
  exact List.find?_cons_of_pos xs (by simp [h])

theorem findRecord_cons_of_neg (x : ClientJob) (xs : List ClientJob) (id : String)
    (h : ¬ x.jobId = id) : findRecord (x :: xs) id = findRecord xs id := by
  unfold findRecord
  exact List.find?_cons_of_neg xs (by simp [h])

theorem updateFirst_cons_of_pos {α : Type} (p : α → Bool) (f : α → α)
    (x : α) (xs : List α) (h : p x = true) :
    updateFirst p f (x :: xs) = f x :: xs := by
  simp [updateFirst, h]

theorem updateFirst_cons_of_neg {α : Type} (p : α → Bool) (f : α → α)
    (x : α) (xs : List α) (h : p x = false) :
    updateFirst p f (x :: xs) = x :: updateFirst p f xs := by
  simp [updateFirst, h]

theorem findRecord_updateFirst_of_ne (id id' : String) (hne : id' ≠ id)
    (f : ClientJob → ClientJob) (hf : ∀ x, (f x).jobId = x.jobId) :
    ∀ l : List ClientJob,
      findRecord (updateFirst (fun j => j.jobId == id') f l) id = findRecord l id
  | [] => rfl
  | x :: xs => by
    have ih := findRecord_updateFirst_of_ne id id' hne f hf xs
    by_cases hx : x.jobId = id'
    · have hxid : ¬ x.jobId = id := by rw [hx]; exact hne
      have hfid : ¬ (f x).jobId = id := by rw [hf x]; exact hxid
      rw [updateFirst_cons_of_pos _ f x xs (by simp [hx]),
          findRecord_cons_of_neg _ _ _ hfid, findRecord_cons_of_neg _ _ _ hxid]
    · rw [updateFirst_cons_of_neg _ f x xs (by simp [hx])]
      by_cases hxid : x.jobId = id
      · rw [findRecord_cons_of_pos _ _ _ hxid, findRecord_cons_of_pos _ _ _ hxid]
      · rw [findRecord_cons_of_neg _ _ _ hxid, findRecord_cons_of_neg _ _ _ hxid]
        exact ih

theorem findRecord_updateFirst_self (id : String)
    (f : ClientJob → ClientJob) (hf : ∀ x, (f x).jobId = x.jobId) :
    ∀ l : List ClientJob, ∀ j : ClientJob, findRecord l id = some j →
      findRecord (updateFirst (fun x => x.jobId == id) f l) id = some (f j)
  | [], j, h => by simp [findRecord] at h
  | x :: xs, j, h => by
    by_cases hx : x.jobId = id
    · have hfx : (f x).jobId = id := by rw [hf x]; exact hx
      have hxj : x = j := by
        have := (findRecord_cons_of_pos x xs id hx) ▸ h
        exact Option.some.inj this
      subst hxj
      rw [updateFirst_cons_of_pos _ f x xs (by simp [hx]),
          findRecord_cons_of_pos _ _ _ hfx]
    · have h' : findRecord xs id = some j := (findRecord_cons_of_neg x xs id hx) ▸ h
      have ih := findRecord_updateFirst_self id f hf xs j h'
      rw [updateFirst_cons_of_neg _ f x xs (by simp [hx]),
          findRecord_cons_of_neg _ _ _ hx]
      exact ih

theorem findRecord_of_mem_nodup :
    ∀ l : List ClientJob, ∀ j : ClientJob, j ∈ l →
      (l.map ClientJob.jobId).Nodup → findRecord l j.jobId = some j
  | [], j, hmem, _ => absurd hmem (List.not_mem_nil j)
  | x :: xs, j, hmem, hnodup => by
    rcases List.mem_cons.mp hmem with hxj | hxs
    · subst hxj
      exact findRecord_cons_of_pos j xs j.jobId rfl
    · have hnodup' : (xs.map ClientJob.jobId).Nodup := (List.nodup_cons.mp hnodup).2
      have hx_notin : x.jobId ∉ xs.map ClientJob.jobId := (List.nodup_cons.mp hnodup).1
      have hxid : ¬ x.jobId = j.jobId := by
        intro heq
        exact hx_notin (heq ▸ List.mem_map_of_mem ClientJob.jobId hxs)
      rw [findRecord_cons_of_neg _ _ _ hxid]
      exact findRecord_of_mem_nodup xs j hxs hnodup'

/-! ## Claim theorems: producer store -/

/-- A sample producer job used to instantiate hypothesis-bearing theorems. -/
def witJob : ClientJob :=
  { jobId := "j1", filePath := "rec/a.mkv", originalFilename := "a.mkv",
    status := ClientJobStatus.FAILED, retryCount := 2, createdAt := "2026-01-01" }

/-- C4: for every job present in the producer store, setError with fatal=true
    sets status to ABANDONED and leaves retryCount unchanged, while setError
    with fatal=false increments retryCount by exactly 1 and sets status FAILED
    below the post-increment threshold 4 and ABANDONED at or above it. -/
theorem setError_fatal_and_transient_semantics
    (jobs : List ClientJob) (id msg : String) (j : ClientJob)
    (h : findRecord jobs id = some j) :
    findRecord (setError jobs id msg true).1 id =
      some { j with error := some msg, status := ClientJobStatus.ABANDONED } ∧
    findRecord (setError jobs id msg false).1 id =
      some { j with error := some msg, retryCount := j.retryCount + 1,
                    status := if j.retryCount + 1 ≥ 4 then ClientJobStatus.ABANDONED
                              else ClientJobStatus.FAILED } := by
  have hpres : ∀ (b : Bool) (x : ClientJob), (setErrorUpdate msg b x).jobId = x.jobId := by
    intro b x
    unfold setErrorUpdate
    split
    · rfl
    · split <;> rfl
  constructor
  · have hsf := findRecord_updateFirst_self id (setErrorUpdate msg true)
      (hpres true) jobs j h
    rw [show (setError jobs id msg true).1 =
          updateFirst (fun x => x.jobId == id) (setErrorUpdate msg true) jobs from rfl, hsf]
    simp [setErrorUpdate]
  · have hsf := findRecord_updateFirst_self id (setErrorUpdate msg false)
      (hpres false) jobs j h
    rw [show (setError jobs id msg false).1 =
          updateFirst (fun x => x.jobId == id) (setErrorUpdate msg false) jobs from rfl, hsf]
    by_cases hth : j.retryCount + 1 ≥ 4 <;> simp [setErrorUpdate, hth]

/-- Witness for C4 at a concrete store: a FAILED job with retryCount 2. -/
theorem setError_fatal_and_transient_semantics_witness :
    findRecord (setError [witJob] "j1" "boom" true).1 "j1" =
      some { witJob with error := some "boom", status := ClientJobStatus.ABANDONED } ∧
    findRecord (setError [witJob] "j1" "boom" false).1 "j1" =
      some { witJob with error := some "boom", retryCount := 3,
                         status := ClientJobStatus.FAILED } := by
  have h := setError_fatal_and_transient_semantics [witJob] "j1" "boom" witJob
    (by decide)
  exact ⟨h.1, by simpa [witJob] using h.2⟩

/-- C9: each mutating store operation invoked with an id absent from the store
    returns normally, leaves the job list unchanged and performs no write. -/
theorem unknown_id_mutations_are_noops
    (jobs : List ClientJob) (id : String) (h : ∀ j ∈ jobs, j.jobId ≠ id)
    (status : ClientJobStatus) (opts : UploadOptions) (msg : String) (isFatal : Bool) :
    updateStatus jobs id status = (jobs, false) ∧
    updateOptions jobs id opts = (jobs, false) ∧
    setError jobs id msg isFatal = (jobs, false) ∧
    resetJobForRetry jobs id = (jobs, false) :=
  ⟨dbUpdate_of_not_found jobs id _ h, dbUpdate_of_not_found jobs id _ h,
   dbUpdate_of_not_found jobs id _ h, dbUpdate_of_not_found jobs id _ h⟩

/-- Witness for C9 at a concrete store and an id it does not contain. -/
theorem unknown_id_mutations_are_noops_witness :
    updateStatus [witJob] "nope" ClientJobStatus.READY = ([witJob], false) ∧
    updateOptions [witJob] "nope"
      { language := TranscriptionLanguage.en, template := AIPromptTemplate.meeting } =
      ([witJob], false) ∧
    setError [witJob] "nope" "msg" false = ([witJob], false) ∧
    resetJobForRetry [witJob] "nope" = ([witJob], false) :=
  unknown_id_mutations_are_noops [witJob] "nope" (by decide)
    ClientJobStatus.READY
    { language := TranscriptionLanguage.en, template := AIPromptTemplate.meeting }
    "msg" false

/-- C6: the set pushPending selects is exactly the WAITING_UPLOAD jobs
    together with the FAILED jobs whose retryCount is strictly below 3; FAILED
    jobs at retryCount 3 or more and every other status are excluded. -/
theorem pushPending_candidate_set (dateVal : String → Int) (jobs : List ClientJob)
    (j : ClientJob) :
    j ∈ pushPendingTargets dateVal jobs ↔
      j ∈ jobs ∧ (j.status = ClientJobStatus.WAITING_UPLOAD ∨
        (j.status = ClientJobStatus.FAILED ∧ j.retryCount < 3)) := by
  unfold pushPendingTargets getAll
  rw [List.mem_filter, (List.mergeSort_perm jobs _).mem_iff]
  simp [MAX_RETRIES]

/-- Helper for C7: the transition condition of cleanPhantomFiles, as a
    decidable proposition. -/
def phantomHit (fileExists : String → Bool) (j : ClientJob) : Prop :=
  (j.status = ClientJobStatus.WAITING_UPLOAD ∨ j.status = ClientJobStatus.FAILED) ∧
    fileExists j.filePath = false

instance (fileExists : String → Bool) (j : ClientJob) : Decidable (phantomHit fileExists j) :=
  inferInstanceAs (Decidable (_ ∧ _))

theorem cleanPhantomStep_spec (fileExists : String → Bool) (j : ClientJob) :
    cleanPhantomStep fileExists j =
      if phantomHit fileExists j then
        ({ j with status := ClientJobStatus.DELETED, error := some phantomErrorMsg }, 1)
      else (j, 0) := by
  unfold cleanPhantomStep phantomHit
  by_cases hvul : j.status = ClientJobStatus.WAITING_UPLOAD ∨ j.status = ClientJobStatus.FAILED <;>
    by_cases hex : fileExists j.filePath <;>
      simp [vulnerableStates, hvul, hex]

theorem cleanPhantomLoop_spec (fileExists : String → Bool) :
    ∀ jobs : List ClientJob,
      cleanPhantomLoop fileExists jobs =
        (jobs.map (fun j =>
          if phantomHit fileExists j then
            { j with status := ClientJobStatus.DELETED, error := some phantomErrorMsg }
          else j),
         (jobs.filter (fun j => decide (phantomHit fileExists j))).length)
  | [] => rfl
  | j :: rest => by
    have ih := cleanPhantomLoop_spec fileExists rest
    by_cases hj : phantomHit fileExists j <;>
      simp [cleanPhantomLoop, cleanPhantomStep_spec, hj, ih, Nat.add_comm]

/-- C7: cleanPhantomFiles transitions to DELETED exactly the records whose
    status is WAITING_UPLOAD or FAILED and whose backing artifact is absent,
    stamping each with the fixed non-empty error text; the returned count is
    exactly the number so transitioned, every other record is untouched, and
    the backing document is written only when the count is positive. -/
theorem cleanPhantomFiles_spec (fileExists : String → Bool) (jobs : List ClientJob) :
    (cleanPhantomFiles fileExists jobs).1 =
      jobs.map (fun j =>
        if phantomHit fileExists j then
          { j with status := ClientJobStatus.DELETED, error := some phantomErrorMsg }
        else j) ∧
    (cleanPhantomFiles fileExists jobs).2.1 =
      (jobs.filter (fun j => decide (phantomHit fileExists j))).length ∧
    ((cleanPhantomFiles fileExists jobs).2.2 = false ↔
      (cleanPhantomFiles fileExists jobs).2.1 = 0) ∧
    phantomErrorMsg ≠ "" := by
  unfold cleanPhantomFiles
  rw [cleanPhantomLoop_spec]
  refine ⟨rfl, rfl, ?_, by decide⟩
  simp

/-! ## Claim theorems: code-level divergences (C1, C2, C3) -/

/-- Options used to instantiate pushJob scenarios. -/
def pushOpts : UploadOptions :=
  { language := TranscriptionLanguage.en, template := AIPromptTemplate.meeting }

/-- A WAITING_UPLOAD job with two earlier failed attempts and saved options. -/
def pushWitJob : ClientJob :=
  { jobId := "job-1", filePath := "rec/m.mkv", originalFilename := "m.mkv",
    status := ClientJobStatus.WAITING_UPLOAD, retryCount := 2,
    createdAt := "2026-01-02", options := some pushOpts }

/-- C1 divergence: after a successful upload, pushJob leaves the record in
    WAITING_UPLOAD (with retryCount 0), not PROCESSING: the resetJobForRetry
    call that zeroes the retry counter also overwrites the PROCESSING status
    set one line earlier. -/
theorem pushJob_success_ends_waiting_upload :
    (findRecord (pushJob pushOpts (Except.ok ()) [pushWitJob] pushWitJob) "job-1").map
        ClientJob.status = some ClientJobStatus.WAITING_UPLOAD ∧
    (findRecord (pushJob pushOpts (Except.ok ()) [pushWitJob] pushWitJob) "job-1").map
        ClientJob.retryCount = some 0 ∧
    ClientJobStatus.WAITING_UPLOAD ≠ ClientJobStatus.PROCESSING := by
  refine ⟨rfl, rfl, by decide⟩

/-- A worker store already holding the correlation id abc. -/
def existingWorkerJob : JobRecord :=
  { id := "abc", originalFilename := "m.mp3", filePath := "uploads/old_m.mp3",
    uploadDate := "2026-01-01", status := WorkerStatus.PENDING }

/-- C2 divergence: an accepted upload carrying the already-present correlation
    id abc is appended as a second record — the ingress never searches for an
    existing id — so the store grows from one record to two, both with id abc. -/
theorem upload_with_known_id_appends_duplicate :
    (postUpload ["uuid-1"] "2026-01-02" [existingWorkerJob]
        [UploadPart.filePart "m.mp3", UploadPart.fieldPart "id" "abc"]).toOption.map
      (fun r => (r.1.length, (r.1.filter (fun j => j.id == "abc")).length)) =
      some (2, 2) := by
  rfl

/-- C3 divergence: a failing read of the backing document never aborts
    startup — init catches the error and continues with the store silently
    reset to an empty job list, whatever the error was. -/
theorem lowDbInit_swallows_read_failure (e : String) :
    lowDbInit (Except.error e) = Except.ok { jobs := [] } := rfl

/-! ## Claim theorems: worker status route (C8) -/

theorem safeJobFields_no_internal_keys (job : JobRecord) :
    ∀ kv ∈ safeJobFields job, kv.1 ∉ internalPathKeys := by
  intro kv hkv
  have := (List.mem_filter.mp hkv).2
  intro hmem
  simp [hmem] at this

theorem hydrateField_keys (fileExists : String → Bool) (readFile : String → Except Unit String)
    (pathOpt : Option String) (textKey errKey : String) :
    ∀ kv ∈ hydrateField fileExists readFile pathOpt textKey errKey,
      kv.1 = textKey ∨ kv.1 = errKey := by
  intro kv hkv
  unfold hydrateField at hkv
  split at hkv
  · split at hkv
    · split at hkv
      · simp at hkv
        exact Or.inl (by simp [hkv])
      · simp at hkv
        exact Or.inr (by simp [hkv])
    · simp at hkv
  · simp at hkv

/-- C8: GET /jobs/:id answers not-found on an unknown id; on a known id the
    response carries the worker status as a field, never carries any of the
    four worker-internal path keys, and hydrates summary and transcript as
    text content when their files are recorded and readable, replacing each
    unreadable one with the fixed per-field error string. -/
theorem getJobRoute_contract (fileExists : String → Bool)
    (readFile : String → Except Unit String) (jobsDb : List JobRecord) (reqId : String) :
    (jobsDb.find? (fun j => j.id == reqId) = none →
      getJobRoute fileExists readFile jobsDb reqId = Except.error "Job not found") ∧
    (∀ job, jobsDb.find? (fun j => j.id == reqId) = some job →
      ∃ resp, getJobRoute fileExists readFile jobsDb reqId = Except.ok resp ∧
        ("status", workerStatusStr job.status) ∈ resp ∧
        (∀ kv ∈ resp, kv.1 ∉ internalPathKeys) ∧
        (∀ p text, job.summaryPath = some p → fileExists p = true →
          readFile p = Except.ok text → ("summaryText", text) ∈ resp) ∧
        (∀ p, job.summaryPath = some p → fileExists p = true →
          readFile p = Except.error () → ("summaryError", "File unreadable.") ∈ resp) ∧
        (∀ p text, job.transcriptPath = some p → fileExists p = true →
          readFile p = Except.ok text → ("transcriptText", text) ∈ resp) ∧
        (∀ p, job.transcriptPath = some p → fileExists p = true →
          readFile p = Except.error () → ("transcriptError", "File unreadable.") ∈ resp)) := by
  constructor
  · intro hnone
    unfold getJobRoute
    rw [hnone]
  · intro job hfind
    refine ⟨safeJobFields job
      ++ hydrateField fileExists readFile job.transcriptPath "transcriptText" "transcriptError"
      ++ hydrateField fileExists readFile job.summaryPath "summaryText" "summaryError",
      ?_, ?_, ?_, ?_, ?_, ?_, ?_⟩
    · unfold getJobRoute
      rw [hfind]
    · have hmem : ("status", workerStatusStr job.status) ∈ jobRecordFields job := by
        unfold jobRecordFields
        apply List.mem_append_left
        apply List.mem_append_left
        apply List.mem_append_left
        apply List.mem_append_left
        apply List.mem_append_left
        apply List.mem_append_left
        simp
      apply List.mem_append_left
      apply List.mem_append_left
      exact List.mem_filter.mpr ⟨hmem, by simp [internalPathKeys]⟩
    · intro kv hkv
      rcases List.mem_append.mp hkv with hkv' | hsum
      · rcases List.mem_append.mp hkv' with hsafe | htr
        · exact safeJobFields_no_internal_keys job kv hsafe
        · rcases hydrateField_keys fileExists readFile job.transcriptPath
            "transcriptText" "transcriptError" kv htr with h | h <;>
            · rw [h]; decide
      · rcases hydrateField_keys fileExists readFile job.summaryPath
          "summaryText" "summaryError" kv hsum with h | h <;>
          · rw [h]; decide
    · intro p text hp hex hread
      apply List.mem_append_right
      simp [hydrateField, hp, hex, hread]
    · intro p hp hex hread
      apply List.mem_append_right
      simp [hydrateField, hp, hex, hread]
    · intro p text hp hex hread
      apply List.mem_append_left
      apply List.mem_append_right
      simp [hydrateField, hp, hex, hread]
    · intro p hp hex hread
      apply List.mem_append_left
      apply List.mem_append_right
      simp [hydrateField, hp, hex, hread]

/-- A completed worker record with both artifact paths recorded. -/
def doneWorkerJob : JobRecord :=
  { id := "abc", originalFilename := "m.mp3", filePath := "uploads/u_m.mp3",
    uploadDate := "2026-01-01", status := WorkerStatus.COMPLETED,
    transcriptPath := some "out/t.txt", summaryPath := some "out/s.txt" }

/-- Witness for C8 on a one-record store with readable artifacts. -/
theorem getJobRoute_contract_witness :
    ∃ resp, getJobRoute (fun _ => true) (fun p => Except.ok ("content of " ++ p))
        [doneWorkerJob] "abc" = Except.ok resp ∧
      ("status", "COMPLETED") ∈ resp ∧
      (∀ kv ∈ resp, kv.1 ∉ internalPathKeys) ∧
      ("summaryText", "content of out/s.txt") ∈ resp ∧
      ("transcriptText", "content of out/t.txt") ∈ resp := by
  have h := (getJobRoute_contract (fun _ => true)
    (fun p => Except.ok ("content of " ++ p)) [doneWorkerJob] "abc").2 doneWorkerJob rfl
  obtain ⟨resp, hok, hstatus, hkeys, hsumText, _, htrText, _⟩ := h
  exact ⟨resp, hok, hstatus, hkeys,
    hsumText "out/s.txt" "content of out/s.txt" rfl rfl rfl,
    htrText "out/t.txt" "content of out/t.txt" rfl rfl rfl⟩

/-! ## Snapshot-loop lemmas for the update-active-states and fetch-results phases -/

theorem setErrorUpdate_jobId (msg : String) (b : Bool) (x : ClientJob) :
    (setErrorUpdate msg b x).jobId = x.jobId := by
  unfold setErrorUpdate
  split
  · rfl
  · split <;> rfl

theorem nodup_ids_filter (p : ClientJob → Bool) (l : List ClientJob)
    (h : (l.map ClientJob.jobId).Nodup) : ((l.filter p).map ClientJob.jobId).Nodup :=
  List.Nodup.sublist ((l.filter_sublist).map ClientJob.jobId) h

theorem mem_split_distinct_ids (l : List ClientJob) (j : ClientJob)
    (hmem : j ∈ l) (hnodup : (l.map ClientJob.jobId).Nodup) :
    ∃ A B, l = A ++ j :: B ∧ (∀ p ∈ A, p.jobId ≠ j.jobId) ∧
      (∀ p ∈ B, p.jobId ≠ j.jobId) := by
  obtain ⟨A, B, rfl⟩ := List.append_of_mem hmem
  rw [List.map_append, List.map_cons] at hnodup
  have hsplit := List.nodup_append.mp hnodup
  refine ⟨A, B, rfl, ?_, ?_⟩
  · intro p hp heq
    exact hsplit.2.2 (heq ▸ List.mem_map_of_mem ClientJob.jobId hp)
      (List.mem_cons_self _ _)
  · intro p hp heq
    exact (List.nodup_cons.mp hsplit.2.1).1 (heq ▸ List.mem_map_of_mem ClientJob.jobId hp)

theorem updateActiveStep_completed (api : String → Except Unit ServerJob)
    (jobs : List ClientJob) (p : ClientJob) (sj : ServerJob)
    (hapi : api p.jobId = Except.ok sj) (hc : sj.status = WorkerStatus.COMPLETED) :
    updateActiveStep api jobs p = (updateStatus jobs p.jobId ClientJobStatus.READY).1 := by
  unfold updateActiveStep
  rw [hapi]
  simp [hc]

theorem updateActiveStep_failed (api : String → Except Unit ServerJob)
    (jobs : List ClientJob) (p : ClientJob) (sj : ServerJob)
    (hapi : api p.jobId = Except.ok sj) (hc : sj.status = WorkerStatus.FAILED) :
    updateActiveStep api jobs p =
      (setError jobs p.jobId (sj.error.getD "Server processing failed") true).1 := by
  unfold updateActiveStep
  rw [hapi]
  simp [hc]

theorem updateActiveStep_thrown (api : String → Except Unit ServerJob)
    (jobs : List ClientJob) (p : ClientJob)
    (hapi : api p.jobId = Except.error ()) :
    updateActiveStep api jobs p = jobs := by
  unfold updateActiveStep
  rw [hapi]

theorem updateActiveStep_in_progress (api : String → Except Unit ServerJob)
    (jobs : List ClientJob) (p : ClientJob) (sj : ServerJob)
    (hapi : api p.jobId = Except.ok sj) (hc : sj.status ≠ WorkerStatus.COMPLETED)
    (hf : sj.status ≠ WorkerStatus.FAILED) :
    updateActiveStep api jobs p = jobs := by
  unfold updateActiveStep
  rw [hapi]
  simp [hc, hf]

theorem updateActiveStep_preserves (api : String → Except Unit ServerJob)
    (jobs : List ClientJob) (p : ClientJob) (id : String) (hne : p.jobId ≠ id) :
    findRecord (updateActiveStep api jobs p) id = findRecord jobs id := by
  cases hapi : api p.jobId with
  | error u =>
    cases u
    rw [updateActiveStep_thrown api jobs p hapi]
  | ok sj =>
    by_cases h1 : sj.status = WorkerStatus.COMPLETED
    · rw [updateActiveStep_completed api jobs p sj hapi h1]
      exact findRecord_updateFirst_of_ne id p.jobId hne
        (fun x => { x with status := ClientJobStatus.READY }) (fun x => rfl) jobs
    · by_cases h2 : sj.status = WorkerStatus.FAILED
      · rw [updateActiveStep_failed api jobs p sj hapi h2]
        exact findRecord_updateFirst_of_ne id p.jobId hne
          (setErrorUpdate (sj.error.getD "Server processing failed") true)
          (setErrorUpdate_jobId _ true) jobs
      · rw [updateActiveStep_in_progress api jobs p sj hapi h1 h2]

theorem updateActiveLoop_preserves (api : String → Except Unit ServerJob) :
    ∀ (P : List ClientJob) (jobs : List ClientJob) (id : String),
      (∀ p ∈ P, p.jobId ≠ id) →
      findRecord (updateActiveLoop api P jobs) id = findRecord jobs id
  | [], _, _, _ => rfl
  | p :: rest, jobs, id, h => by
    have h1 := updateActiveStep_preserves api jobs p id (h p (List.mem_cons_self p rest))
    have ih := updateActiveLoop_preserves api rest (updateActiveStep api jobs p) id
      (fun q hq => h q (List.mem_cons_of_mem p hq))
    exact ih.trans h1

theorem updateActiveLoop_append (api : String → Except Unit ServerJob) :
    ∀ (A B : List ClientJob) (jobs : List ClientJob),
      updateActiveLoop api (A ++ B) jobs =
        updateActiveLoop api B (updateActiveLoop api A jobs)
  | [], _, _ => rfl
  | a :: A, B, jobs => updateActiveLoop_append api A B (updateActiveStep api jobs a)

/-- C5: in update-active-states, a PROCESSING job whose status query reports
    COMPLETED ends READY; one reported FAILED is recorded via a fatal setError
    (ABANDONED, retryCount untouched, worker message stored, with the fixed
    fallback text when the worker sent none); and a thrown query or a reported
    in-progress stage leaves the record exactly as it was while the loop goes
    on. -/
theorem updateActiveStates_per_job (api : String → Except Unit ServerJob)
    (dateVal : String → Int) (jobs : List ClientJob) (j : ClientJob)
    (hnodup : (jobs.map ClientJob.jobId).Nodup) (hmem : j ∈ jobs)
    (hstatus : j.status = ClientJobStatus.PROCESSING) :
    (∀ sj, api j.jobId = Except.ok sj → sj.status = WorkerStatus.COMPLETED →
      findRecord (updateActiveStates api dateVal jobs) j.jobId =
        some { j with status := ClientJobStatus.READY }) ∧
    (∀ sj, api j.jobId = Except.ok sj → sj.status = WorkerStatus.FAILED →
      findRecord (updateActiveStates api dateVal jobs) j.jobId =
        some { j with status := ClientJobStatus.ABANDONED,
                      error := some (sj.error.getD "Server processing failed") }) ∧
    (api j.jobId = Except.error () →
      findRecord (updateActiveStates api dateVal jobs) j.jobId = some j) ∧
    (∀ sj, api j.jobId = Except.ok sj → sj.status ≠ WorkerStatus.COMPLETED →
      sj.status ≠ WorkerStatus.FAILED →
      findRecord (updateActiveStates api dateVal jobs) j.jobId = some j) := by
  have hperm : (getAll dateVal jobs).Perm jobs := List.mergeSort_perm jobs _
  have hnodup_sorted : ((getAll dateVal jobs).map ClientJob.jobId).Nodup :=
    ((hperm.map ClientJob.jobId).nodup_iff).mpr hnodup
  have hmemp : j ∈ (getAll dateVal jobs).filter
      (fun x => x.status == ClientJobStatus.PROCESSING) :=
    List.mem_filter.mpr ⟨hperm.mem_iff.mpr hmem, by simp [hstatus]⟩
  have hnodupp : (((getAll dateVal jobs).filter
      (fun x => x.status == ClientJobStatus.PROCESSING)).map ClientJob.jobId).Nodup :=
    nodup_ids_filter _ _ hnodup_sorted
  obtain ⟨A, B, hAB, hA, hB⟩ := mem_split_distinct_ids _ j hmemp hnodupp
  have hfr : findRecord (updateActiveLoop api A jobs) j.jobId = some j := by
    rw [updateActiveLoop_preserves api A jobs j.jobId hA]
    exact findRecord_of_mem_nodup jobs j hmem hnodup
  have hmain : ∀ r : ClientJob,
      findRecord (updateActiveStep api (updateActiveLoop api A jobs) j) j.jobId = some r →
      findRecord (updateActiveStates api dateVal jobs) j.jobId = some r := by
    intro r hstep
    unfold updateActiveStates
    rw [hAB, updateActiveLoop_append]
    rw [show updateActiveLoop api (j :: B) (updateActiveLoop api A jobs) =
        updateActiveLoop api B
          (updateActiveStep api (updateActiveLoop api A jobs) j) from rfl]
    rw [updateActiveLoop_preserves api B _ j.jobId hB]
    exact hstep
  refine ⟨?_, ?_, ?_, ?_⟩
  · intro sj hapi hc
    apply hmain
    rw [updateActiveStep_completed api _ j sj hapi hc]
    exact findRecord_updateFirst_self j.jobId
      (fun x => { x with status := ClientJobStatus.READY }) (fun x => rfl) _ j hfr
  · intro sj hapi hc
    apply hmain
    rw [updateActiveStep_failed api _ j sj hapi hc]
    have := findRecord_updateFirst_self j.jobId
      (setErrorUpdate (sj.error.getD "Server processing failed") true)
      (setErrorUpdate_jobId _ true) _ j hfr
    rw [show (setError (updateActiveLoop api A jobs) j.jobId
        (sj.error.getD "Server processing failed") true).1 =
        updateFirst (fun x => x.jobId == j.jobId)
          (setErrorUpdate (sj.error.getD "Server processing failed") true)
          (updateActiveLoop api A jobs) from rfl]
    rw [this]
    simp [setErrorUpdate]
  · intro hapi
    apply hmain
    rw [updateActiveStep_thrown api _ j hapi]
    exact hfr
  · intro sj hapi hc hf
    apply hmain
    rw [updateActiveStep_in_progress api _ j sj hapi hc hf]
    exact hfr

/-- A PROCESSING job used to instantiate the update-active-states theorem. -/
def procJob : ClientJob :=
  { jobId := "p1", filePath := "rec/p.mkv", originalFilename := "p.mkv",
    status := ClientJobStatus.PROCESSING, retryCount := 0, createdAt := "2026-01-03" }

/-- Witness for C5: a one-job store whose worker reports COMPLETED ends READY. -/
theorem updateActiveStates_per_job_witness :
    findRecord (updateActiveStates (fun _ => Except.ok { status := WorkerStatus.COMPLETED })
        (fun _ => 0) [procJob]) procJob.jobId =
      some { procJob with status := ClientJobStatus.READY } :=
  (updateActiveStates_per_job (fun _ => Except.ok { status := WorkerStatus.COMPLETED })
    (fun _ => 0) [procJob] procJob (by simp) (List.mem_cons_self procJob [])
    rfl).1 { status := WorkerStatus.COMPLETED } rfl rfl

theorem fetchStep_skip (api : String → Except Unit ServerJob)
    (jobs : List ClientJob) (p : ClientJob) (payload : ServerJob)
    (hapi : api p.jobId = Except.ok payload)
    (hsum : truthyStr payload.summaryText = false) :
    fetchStep api jobs p = (jobs, []) := by
  unfold fetchStep
  rw [hapi]
  cases hs : payload.summaryText with
  | none => simp [hs]
  | some s =>
    have hse : (s != "") = false := by
      have hcopy := hsum
      rw [hs] at hcopy
      simpa [truthyStr] using hcopy
    simp [hs, hse]

theorem fetchStep_preserves (api : String → Except Unit ServerJob)
    (jobs : List ClientJob) (p : ClientJob) (id : String) (hne : p.jobId ≠ id) :
    findRecord (fetchStep api jobs p).1 id = findRecord jobs id := by
  unfold fetchStep
  cases hapi : api p.jobId with
  | error u => rfl
  | ok payload =>
    cases hs : payload.summaryText with
    | none => simp [hs]
    | some s =>
      by_cases hse : s = ""
      · simp [hs, hse]
      · have hst : (s != "") = true := by simp [hse]
        simp only [hs, hst, if_true]
        exact findRecord_updateFirst_of_ne id p.jobId hne
          (fun x => { x with status := ClientJobStatus.COMPLETED }) (fun x => rfl) jobs

theorem fetchLoop_fst_preserves (api : String → Except Unit ServerJob) :
    ∀ (R : List ClientJob) (jobs : List ClientJob) (id : String),
      (∀ p ∈ R, p.jobId ≠ id) →
      findRecord (fetchLoop api R jobs).1 id = findRecord jobs id
  | [], _, _, _ => rfl
  | r :: rest, jobs, id, h => by
    have h1 := fetchStep_preserves api jobs r id (h r (List.mem_cons_self r rest))
    have ih := fetchLoop_fst_preserves api rest (fetchStep api jobs r).1 id
      (fun q hq => h q (List.mem_cons_of_mem r hq))
    exact ih.trans h1

theorem fetchLoop_fst_append (api : String → Except Unit ServerJob) :
    ∀ (A B : List ClientJob) (jobs : List ClientJob),
      (fetchLoop api (A ++ B) jobs).1 = (fetchLoop api B (fetchLoop api A jobs).1).1
  | [], _, _ => rfl
  | a :: A, B, jobs => fetchLoop_fst_append api A B (fetchStep api jobs a).1

/-- C10: in fetch-results, a READY job whose fetch succeeds but whose payload
    has no (truthy) summary text is skipped outright: its loop step changes no
    record, writes no file and invokes no sink; its record is unchanged after
    the whole phase; and it is selected again by getReadyToFetch on the next
    cycle. -/
theorem fetchResults_skips_summaryless (api : String → Except Unit ServerJob)
    (jobs : List ClientJob) (j : ClientJob) (payload : ServerJob)
    (hnodup : (jobs.map ClientJob.jobId).Nodup) (hmem : j ∈ jobs)
    (hstatus : j.status = ClientJobStatus.READY)
    (hapi : api j.jobId = Except.ok payload)
    (hsum : truthyStr payload.summaryText = false) :
    (∀ acc : List ClientJob, fetchStep api acc j = (acc, [])) ∧
    findRecord (fetchResults api jobs).1 j.jobId = some j ∧
    j ∈ getReadyToFetch (fetchResults api jobs).1 := by
  have hskip : ∀ acc : List ClientJob, fetchStep api acc j = (acc, []) :=
    fun acc => fetchStep_skip api acc j payload hapi hsum
  have hready : j ∈ getReadyToFetch jobs :=
    List.mem_filter.mpr ⟨hmem, by simp [hstatus]⟩
  have hnodupr : ((getReadyToFetch jobs).map ClientJob.jobId).Nodup :=
    nodup_ids_filter _ _ hnodup
  obtain ⟨A, B, hAB, hA, hB⟩ := mem_split_distinct_ids _ j hready hnodupr
  have hfr : findRecord (fetchLoop api A jobs).1 j.jobId = some j := by
    rw [fetchLoop_fst_preserves api A jobs j.jobId hA]
    exact findRecord_of_mem_nodup jobs j hmem hnodup
  have hfinal : findRecord (fetchResults api jobs).1 j.jobId = some j := by
    unfold fetchResults
    rw [show getReadyToFetch jobs = A ++ j :: B from hAB, fetchLoop_fst_append]
    rw [show (fetchLoop api (j :: B) (fetchLoop api A jobs).1).1 =
        (fetchLoop api B (fetchStep api (fetchLoop api A jobs).1 j).1).1 from rfl]
    rw [show (fetchStep api (fetchLoop api A jobs).1 j).1 = (fetchLoop api A jobs).1 from
        by rw [hskip]]
    rw [fetchLoop_fst_preserves api B _ j.jobId hB]
    exact hfr
  refine ⟨hskip, hfinal, ?_⟩
  exact List.mem_filter.mpr ⟨List.mem_of_find?_eq_some hfinal, by simp [hstatus]⟩

/-- A READY job used to instantiate the fetch-results theorem. -/
def readyJob : ClientJob :=
  { jobId := "r1", filePath := "rec/r.mkv", originalFilename := "r.mkv",
    status := ClientJobStatus.READY, retryCount := 0, createdAt := "2026-01-04" }

/-- Witness for C10: a one-job READY store whose fetched payload carries no
    summary text is left untouched and stays fetchable. -/
theorem fetchResults_skips_summaryless_witness :
    (∀ acc : List ClientJob,
      fetchStep (fun _ => Except.ok { status := WorkerStatus.SUMMARIZING }) acc readyJob =
        (acc, [])) ∧
    findRecord (fetchResults (fun _ => Except.ok { status := WorkerStatus.SUMMARIZING })
        [readyJob]).1 readyJob.jobId = some readyJob ∧
    readyJob ∈ getReadyToFetch
      (fetchResults (fun _ => Except.ok { status := WorkerStatus.SUMMARIZING })
        [readyJob]).1 :=
  fetchResults_skips_summaryless (fun _ => Except.ok { status := WorkerStatus.SUMMARIZING })
    [readyJob] readyJob { status := WorkerStatus.SUMMARIZING } (by simp)
    (List.mem_cons_self readyJob []) rfl rfl rfl

end MeetingSummarizer
